import Mathlib

/-
Verification development for the AI-powered adaptive examination system.
The frontend TypeScript declarations and components are embedded directly
from the repository sources (frontend/lib/api-types.ts, the exam config
panel, the exam session page).  The backend attempt state machine, scoring
engine and vector index live in the FastAPI application that is not part
of this tree; those operations are modelled from the specification and are
marked as such in their doc comments.
-/

namespace AdaptiveExam

/-- End reasons of an exam attempt, exactly the members of the public
TypeScript enum AttemptEndReason declared in frontend/lib/api-types.ts. -/
inductive AttemptEndReason where
  | completed
  | student_end
  | time_limit
  | too_many_incorrect
  | too_slow
  | no_questions
  | error
deriving DecidableEq

/-- All values of the public AttemptEndReason enum, in declaration order. -/
def publicEndReasons : List AttemptEndReason :=
  [.completed, .student_end, .time_limit, .too_many_incorrect, .too_slow,
   .no_questions, .error]

/-- The five end-reason values named by the specification (stop rules plus
student_end). -/
def specEndReasons : List AttemptEndReason :=
  [.time_limit, .too_many_incorrect, .too_slow, .completed, .student_end]

/-- Modelled from the spec: the ExamConfig fields consumed by the Attempt
State Machine (spec data model, with max_duration in seconds as used by the
stop rules; the backend app/models.py and app/services/exam_logic.py are not
in this tree). -/
structure EngineConfig where
  max_duration : Nat
  max_attempts : Nat
  max_questions : Nat
  stop_consecutive_incorrect : Nat
  stop_slow_seconds : Nat
deriving DecidableEq

/-- Modelled from the spec: stop-rule evaluation of submit_answer
(spec 4.3), in the fixed priority order time limit, consecutive-incorrect,
slow answer, max questions; first match wins.  The counters are the values
after the just-graded answer has been applied.  The backend
app/services/exam_logic.py is not in this tree. -/
def stopReason (cfg : EngineConfig) (elapsed_seconds consecutive_incorrect
    time_taken_seconds questions_answered : Nat) : Option AttemptEndReason :=
  if cfg.max_duration ≤ elapsed_seconds then some .time_limit
  else if cfg.stop_consecutive_incorrect ≤ consecutive_incorrect then
    some .too_many_incorrect
  else if cfg.stop_slow_seconds ≤ time_taken_seconds then some .too_slow
  else if cfg.max_questions ≤ questions_answered then some .completed
  else none

/-- Modelled from the spec: the grading output returned by the external
Generation/Grading Capability (correctness in 0..1, is_correct, feedback). -/
structure GradeOutcome where
  correctness : ℚ
  is_correct : Bool
  feedback : String
deriving DecidableEq

/-- Modelled from the spec: the mutable per-attempt state tracked by the
Attempt State Machine while an attempt is open; finished is none while the
attempt is open and records the end reason once it ends. -/
structure AttemptState where
  finished : Option AttemptEndReason
  questions_answered : Nat
  consecutive_incorrect : Nat
  answers : List (Nat × GradeOutcome)
  current_question : Option Nat
deriving DecidableEq

/-- Client-visible failures of submit_answer (spec error taxonomy). -/
inductive SubmitError where
  | AttemptNotOpen
  | QuestionAlreadyAnswered
  | GradingFailed
  | GenerationFailed
deriving DecidableEq

/-- Modelled from the spec: submit_answer of the Attempt State Machine
(spec 4.3).  External calls are passed in as data: gradeResult is the
grading outcome (none models a timeout or failure of the grading call) and
genResult is the generated next question id (none models a failed
generation call).  The result pairs the attempt state after the call with
the outcome; every error leaves the state component equal to the input
state.  The backend app/services/exam_logic.py is not in this tree. -/
def submit_answer (cfg : EngineConfig) (st : AttemptState) (question_id : Nat)
    (elapsed_seconds time_taken_seconds : Nat)
    (gradeResult : Option GradeOutcome) (genResult : Option Nat) :
    AttemptState × Except SubmitError GradeOutcome :=
  if st.finished.isSome then (st, .error .AttemptNotOpen)
  else if st.answers.any (fun p => p.1 == question_id) then
    (st, .error .QuestionAlreadyAnswered)
  else
    match gradeResult with
    | none => (st, .error .GradingFailed)
    | some g =>
      let qa := st.questions_answered + 1
      let ci := if g.is_correct then 0 else st.consecutive_incorrect + 1
      match stopReason cfg elapsed_seconds ci time_taken_seconds qa with
      | some r =>
        (⟨some r, qa, ci, (question_id, g) :: st.answers, none⟩, .ok g)
      | none =>
        match genResult with
        | none => (st, .error .GenerationFailed)
        | some nq =>
          (⟨none, qa, ci, (question_id, g) :: st.answers, some nq⟩, .ok g)

/-- The consecutive-incorrect counter after applying one graded answer. -/
def nextConsecutive (st : AttemptState) (g : GradeOutcome) : Nat :=
  if g.is_correct then 0 else st.consecutive_incorrect + 1

/-- Modelled from the spec: clamp a rational to the unit interval. -/
def clamp01 (x : ℚ) : ℚ := max 0 (min 1 x)

/-- Modelled from the spec: the configured scoring weights (the external
SCORE_WEIGHT_* configuration of the Scoring Engine). -/
structure ScoreWeights where
  w_c : ℚ
  w_s : ℚ
  w_k : ℚ

/-- Modelled from the spec: mean of the per-answer correctness values over
all answers of an attempt, 0 when there are no answers. -/
def correctness_avg (cs : List ℚ) : ℚ :=
  if cs.isEmpty then 0 else cs.sum / cs.length

/-- Modelled from the spec: the Scoring Engine formula, score equal to
100 times the weighted sum of the correctness average, the speed score and
the consistency score, the latter two clamped to the unit interval.  The
backend app/services/exam_logic.py is not in this tree. -/
def examScore (w : ScoreWeights) (ca speed_score consistency_score : ℚ) : ℚ :=
  100 * (w.w_c * ca + w.w_s * clamp01 speed_score +
    w.w_k * clamp01 consistency_score)

/-- Qualitative rating buckets of the Scoring Engine. -/
inductive Rating where
  | very_good
  | good
  | needs_improvement
  | bad
deriving DecidableEq

/-- Rating thresholds with inclusive lower bounds: 85 very_good, 70 good,
50 needs_improvement, else bad. -/
def ratingOf (s : ℚ) : Rating :=
  if 85 ≤ s then .very_good
  else if 70 ≤ s then .good
  else if 50 ≤ s then .needs_improvement
  else .bad

/-- Modelled from the spec: one row of the exam_attempts table as seen by
the Concurrency Guard: owner, config, attempt_number and the end reason
(none while the attempt is open, that is while ended_at is null).  The
backend app/models.py is not in this tree. -/
structure AttemptRow where
  student_id : Nat
  config_id : Nat
  attempt_number : Nat
  finished : Option AttemptEndReason
deriving DecidableEq

/-- The attempt table, rows in creation order. -/
abbrev ExamDB := List AttemptRow

/-- All attempts of one student for one exam config, in creation order. -/
def attemptsFor (db : ExamDB) (sid cid : Nat) : List AttemptRow :=
  db.filter (fun a => a.student_id == sid && a.config_id == cid)

/-- The open attempts (ended_at null) of one student for one exam config. -/
def openFor (db : ExamDB) (sid cid : Nat) : List AttemptRow :=
  db.filter (fun a =>
    a.student_id == sid && a.config_id == cid && a.finished.isNone)

/-- Client-visible failures of start (spec error taxonomy). -/
inductive StartError where
  | AttemptLimitExceeded
  | AttemptAlreadyOpen
deriving DecidableEq

/-- Modelled from the spec: start(student_id, config); the attempt-limit
check comes first, then the open-attempt check, in the order the spec lists
them; on success the new row is inserted atomically with attempt_number
equal to the prior count plus one.  The backend app/routers/student.py is
not in this tree. -/
def startAttempt (db : ExamDB) (sid : Nat) (cfg : EngineConfig)
    (cid : Nat) : Except StartError (ExamDB × AttemptRow) :=
  if (attemptsFor db sid cid).length = cfg.max_attempts then
    .error .AttemptLimitExceeded
  else if (openFor db sid cid).isEmpty = false then
    .error .AttemptAlreadyOpen
  else
    .ok (db ++ [⟨sid, cid, (attemptsFor db sid cid).length + 1, none⟩],
      ⟨sid, cid, (attemptsFor db sid cid).length + 1, none⟩)

/-- Modelled from the spec: finalization of the open attempt of one student
for one config, recording the end reason (auto-stop, completion or
student_end). -/
def finalizeAttempt (db : ExamDB) (sid cid : Nat) (r : AttemptEndReason) :
    ExamDB :=
  db.map (fun a =>
    if a.student_id == sid && a.config_id == cid && a.finished.isNone then
      ⟨a.student_id, a.config_id, a.attempt_number, some r⟩
    else a)

/-- Modelled from the spec: one atomic transition of the attempt table.
start is a transaction-scoped check-and-create (spec concurrency model), so
a state change of the table is one successful start or one finalization;
interleavings of concurrent calls are sequences of such atomic steps. -/
inductive DBStep : ExamDB → ExamDB → Prop where
  | start_ok (db : ExamDB) (sid : Nat) (cfg : EngineConfig) (cid : Nat)
      (db' : ExamDB) (row : AttemptRow) :
      startAttempt db sid cfg cid = .ok (db', row) → DBStep db db'
  | finalize (db : ExamDB) (sid cid : Nat) (r : AttemptEndReason) :
      DBStep db (finalizeAttempt db sid cid r)

/-- The attempt tables reachable from the empty table by atomic steps. -/
inductive DBReachable : ExamDB → Prop where
  | init : DBReachable []
  | step {db db' : ExamDB} : DBReachable db → DBStep db db' → DBReachable db'

/-- Modelled from the spec: one chunk of lecture text; ordinal is its
position within its source material and the (department, grade) pair is
its retrieval scope. -/
structure Chunk where
  id : Nat
  department_id : Nat
  grade_level : Nat
  ordinal : Nat
deriving DecidableEq

/-- Modelled from the spec: a stored embedding joined with its chunk: the
chunk, the model identifier that produced the vector, and the vector
itself (rationals standing for the stored floats).  The backend
app/services/vector_index.py is not in this tree. -/
structure IndexEntry where
  chunk : Chunk
  model_identifier : String
  vector : List ℚ
deriving DecidableEq

/-- Dot product of two stored vectors (cosine similarity, the vectors
being unit-normalized at creation time). -/
def dot (v w : List ℚ) : ℚ := (List.zipWith (fun a b => a * b) v w).sum

/-- Modelled from the spec: the candidate set of a query: embeddings whose
model_identifier equals the currently configured model, whose (department,
grade) scope matches, and whose chunk is not excluded. -/
def queryCandidates (idx : List IndexEntry) (currentModel : String)
    (dept grade : Nat) (excl : List Nat) : List IndexEntry :=
  idx.filter (fun en => en.model_identifier == currentModel &&
    en.chunk.department_id == dept && en.chunk.grade_level == grade &&
    decide (en.chunk.id ∉ excl))

/-- Modelled from the spec: the result order of a query: higher dot
product first, ties broken by lower chunk ordinal. -/
def rankLE (q : List ℚ) (a b : IndexEntry) : Bool :=
  decide (dot q b.vector < dot q a.vector ∨
    (dot q a.vector = dot q b.vector ∧ a.chunk.ordinal ≤ b.chunk.ordinal))

/-- Modelled from the spec: query_similar_chunks, a brute-force scan that
filters the candidate set by model and scope, sorts by descending
similarity with the ordinal tie break, and returns the first k entries.
The backend app/services/vector_index.py is not in this tree. -/
def query_similar_chunks (idx : List IndexEntry) (currentModel : String)
    (dept grade : Nat) (qvec : List ℚ) (k : Nat) (excl : List Nat) :
    List IndexEntry :=
  ((queryCandidates idx currentModel dept grade excl).mergeSort
    (rankLE qvec)).take k

/-- The field names of the ExamConfig interface declared in
frontend/lib/api-types.ts, in declaration order. -/
def examConfigFields : List String :=
  ["id", "department_id", "grade_level", "max_duration_minutes",
   "max_attempts", "max_questions", "stop_consecutive_incorrect",
   "stop_slow_seconds", "difficulty_min", "difficulty_max", "active"]

/-- The field names of the ExamAttempt interface declared in
frontend/lib/api-types.ts, in declaration order. -/
def examAttemptFields : List String :=
  ["id", "exam_config_id", "student_id", "attempt_number", "started_at",
   "ended_at", "ended_reason", "elapsed_seconds", "questions_answered",
   "score", "rating"]

/-- The field names of the ActiveExamState interface declared in
frontend/lib/api-types.ts, in declaration order. -/
def activeExamStateFields : List String :=
  ["attempt", "question", "elapsed_seconds", "score_so_far",
   "rating_so_far", "time_remaining_seconds"]

/-- The minutes-to-seconds conversion required before comparing an
attempt's elapsed_seconds with the configured max_duration_minutes. -/
def maxDurationSeconds (max_duration_minutes : Nat) : Nat :=
  60 * max_duration_minutes

/-- One managed field of the exam config form of ExamConfigPanel
(frontend/components/ExamConfigPanel.tsx). -/
inductive ConfigField where
  | max_duration_minutes
  | difficulty_min
  | difficulty_max
  | max_attempts
  | stop_consecutive_incorrect
  | stop_slow_seconds
  | max_questions
deriving DecidableEq

/-- The form state of ExamConfigPanel: one number per managed field. -/
structure ExamConfigForm where
  max_duration_minutes : Int
  difficulty_min : Int
  difficulty_max : Int
  max_attempts : Int
  stop_consecutive_incorrect : Int
  stop_slow_seconds : Int
  max_questions : Int
deriving DecidableEq

/-- The initial useState values of the form in ExamConfigPanel. -/
def initialForm : ExamConfigForm := ⟨30, 2, 4, 3, 3, 300, 10⟩

/-- Field lookup on the form state. -/
def getField (f : ExamConfigForm) : ConfigField → Int
  | .max_duration_minutes => f.max_duration_minutes
  | .difficulty_min => f.difficulty_min
  | .difficulty_max => f.difficulty_max
  | .max_attempts => f.max_attempts
  | .stop_consecutive_incorrect => f.stop_consecutive_incorrect
  | .stop_slow_seconds => f.stop_slow_seconds
  | .max_questions => f.max_questions

/-- Field update on the form state, as the functional setFormData update
of handleChange performs it. -/
def setField (f : ExamConfigForm) : ConfigField → Int → ExamConfigForm
  | .max_duration_minutes, v => { f with max_duration_minutes := v }
  | .difficulty_min, v => { f with difficulty_min := v }
  | .difficulty_max, v => { f with difficulty_max := v }
  | .max_attempts, v => { f with max_attempts := v }
  | .stop_consecutive_incorrect, v =>
    { f with stop_consecutive_incorrect := v }
  | .stop_slow_seconds, v => { f with stop_slow_seconds := v }
  | .max_questions, v => { f with max_questions := v }

/-- Hexadecimal digit test, as ECMAScript parseInt accepts after a 0x
prefix. -/
def isHexDigit (c : Char) : Bool :=
  c.isDigit || (('a' ≤ c) && (c ≤ 'f')) || (('A' ≤ c) && (c ≤ 'F'))

/-- Numeric value of a hexadecimal digit character. -/
def hexDigitVal (c : Char) : Nat :=
  if c.isDigit then c.toNat - 48
  else if ('a' ≤ c) && (c ≤ 'f') then c.toNat - 87
  else c.toNat - 55

/-- Value of a digit-character list in the given base. -/
def digitsVal (base : Nat) (dv : Char → Nat) (l : List Char) : Nat :=
  l.foldl (fun acc c => base * acc + dv c) 0

/-- Modelled from ECMAScript parseInt(string) with no radix argument, as
handleChange calls it: leading whitespace is skipped, an optional sign is
read, a 0x or 0X prefix selects hexadecimal, and the longest prefix of
digits is converted; none stands for NaN (no digits found). -/
def jsParseInt (s : String) : Option Int :=
  let t := s.data.dropWhile Char.isWhitespace
  let p : Int × List Char :=
    match t with
    | '-' :: rest => (-1, rest)
    | '+' :: rest => (1, rest)
    | _ => (1, t)
  match p.2 with
  | '0' :: x :: rest =>
    if x = 'x' ∨ x = 'X' then
      let ds := rest.takeWhile isHexDigit
      if ds.isEmpty then none
      else some (p.1 * digitsVal 16 hexDigitVal ds)
    else
      let ds := p.2.takeWhile Char.isDigit
      if ds.isEmpty then none
      else some (p.1 * digitsVal 10 (fun c => c.toNat - 48) ds)
  | _ =>
    let ds := p.2.takeWhile Char.isDigit
    if ds.isEmpty then none
    else some (p.1 * digitsVal 10 (fun c => c.toNat - 48) ds)

/-- Modelled from ECMAScript: the logical-or default `x || 0` applied to
the parseInt result in handleChange; NaN and zero are falsy and give 0,
any other number passes through. -/
def jsOrZero : Option Int → Int
  | none => 0
  | some n => if n = 0 then 0 else n

/-- handleChange of ExamConfigPanel: stores parseInt(value) || 0 into the
changed field of the form state. -/
def handleChange (f : ExamConfigForm) (fld : ConfigField) (v : String) :
    ExamConfigForm :=
  setField f fld (jsOrZero (jsParseInt v))

/-- handleSave of ExamConfigPanel: passes the form state unchanged to the
onSave callback, which posts it to the backend with no further
validation. -/
def handleSave (f : ExamConfigForm) : ExamConfigForm := f

end AdaptiveExam

namespace AdaptiveExam

/-- C1: submit_answer evaluates the stop rules in the fixed priority order
time limit, consecutive-incorrect, slow answer, max questions; the first
rule whose condition holds is recorded as the end reason, and a successful
submission records exactly the stop reason computed from the updated
counters.  In particular, when the elapsed time has reached max_duration
and the consecutive-incorrect threshold is reached on the same submission,
the recorded end reason is time_limit. -/
theorem stop_rule_priority_c1 (cfg : EngineConfig) (e c t q : Nat)
    (st : AttemptState) (qid et tt : Nat) (g : GradeOutcome)
    (gen : Option Nat) :
    (stopReason cfg e c t q = some .time_limit ↔ cfg.max_duration ≤ e) ∧
    (stopReason cfg e c t q = some .too_many_incorrect ↔
      e < cfg.max_duration ∧ cfg.stop_consecutive_incorrect ≤ c) ∧
    (stopReason cfg e c t q = some .too_slow ↔
      e < cfg.max_duration ∧ c < cfg.stop_consecutive_incorrect ∧
      cfg.stop_slow_seconds ≤ t) ∧
    (stopReason cfg e c t q = some .completed ↔
      e < cfg.max_duration ∧ c < cfg.stop_consecutive_incorrect ∧
      t < cfg.stop_slow_seconds ∧ cfg.max_questions ≤ q) ∧
    (∀ st' r, submit_answer cfg st qid et tt (some g) gen = (st', .ok r) →
      st'.finished = stopReason cfg et (nextConsecutive st g) tt
        (st.questions_answered + 1)) ∧
    (cfg.max_duration ≤ et →
      cfg.stop_consecutive_incorrect ≤ nextConsecutive st g →
      st.finished = none → (∀ p ∈ st.answers, p.1 ≠ qid) →
      (submit_answer cfg st qid et tt (some g) gen).1.finished =
        some .time_limit) := by
  refine ⟨?_, ?_, ?_, ?_, ?_, ?_⟩
  · simp only [stopReason]
    split_ifs <;> simp_all
  · simp only [stopReason]
    split_ifs <;> simp_all
  · simp only [stopReason]
    split_ifs <;> simp_all
  · simp only [stopReason]
    split_ifs <;> simp_all
  · intro st' r h
    simp only [submit_answer, nextConsecutive] at h ⊢
    by_cases h1 : st.finished.isSome
    · simp [h1] at h
    · by_cases h2 : st.answers.any (fun p => p.1 == qid)
      · simp [h1, h2] at h
      · simp only [h1, h2, if_false, Bool.false_eq_true, if_neg] at h
        rcases hs : stopReason cfg et
            (if g.is_correct then 0 else st.consecutive_incorrect + 1) tt
            (st.questions_answered + 1) with _ | r'
        · rw [hs] at h
          rcases gen with _ | nq
          · simp at h
          · simp at h
            rw [← h.1]
        · rw [hs] at h
          simp at h
          rw [← h.1]
  · intro h1 h2 h3 h4
    simp only [submit_answer, nextConsecutive] at *
    have hns : st.finished.isSome = false := by simp [h3]
    have hna : st.answers.any (fun p => p.1 == qid) = false := by
      simp only [List.any_eq_false]
      intro p hp
      simpa using h4 p hp
    simp only [hns, hna, Bool.false_eq_true, if_false]
    have hstop : stopReason cfg et
        (if g.is_correct then 0 else st.consecutive_incorrect + 1) tt
        (st.questions_answered + 1) = some .time_limit := by
      simp only [stopReason, if_pos h1]
    rw [hstop]

/-- Witness for C1 at a concrete submission: time limit reached and the
consecutive-incorrect threshold reached on the same submission record
time_limit. -/
theorem stop_rule_priority_c1_witness :
    (submit_answer ⟨600, 3, 10, 3, 300⟩ ⟨none, 3, 2, [], some 5⟩ 7 600 20
      (some ⟨0, false, ("wrong")⟩) none).1.finished =
      some AttemptEndReason.time_limit :=
  (stop_rule_priority_c1 ⟨600, 3, 10, 3, 300⟩ 0 0 0 0
    ⟨none, 3, 2, [], some 5⟩ 7 600 20 ⟨0, false, ("wrong")⟩
    none).2.2.2.2.2 (by decide) (by decide) rfl (by simp)

/-- C2 counterexample: with weights summing to 1 but one of them negative,
the score leaves the interval 0..100, so the sum-to-one hypothesis alone
does not bound the score. -/
theorem scoring_range_counterexample_c2 :
    (2 : ℚ) + (-1) + 0 = 1 ∧
    examScore ⟨2, -1, 0⟩ (correctness_avg [1]) 0 0 = 200 ∧
    ¬ examScore ⟨2, -1, 0⟩ (correctness_avg [1]) 0 0 ≤ 100 := by
  norm_num [examScore, correctness_avg, clamp01]

/-- C2 (amended): with weights that sum to 1 and are each nonnegative, and
per-answer correctness values in 0..1, the score lies in 0..100; the rating
thresholds are inclusive lower bounds 85, 70, 50; and Scenario E evaluates
to score 89 with rating very_good. -/
theorem scoring_engine_c2 (w : ScoreWeights) (cs : List ℚ) (ss ks : ℚ)
    (hsum : w.w_c + w.w_s + w.w_k = 1)
    (hwc : 0 ≤ w.w_c) (hws : 0 ≤ w.w_s) (hwk : 0 ≤ w.w_k)
    (hcs : ∀ x ∈ cs, 0 ≤ x ∧ x ≤ 1) :
    (0 ≤ examScore w (correctness_avg cs) ss ks ∧
      examScore w (correctness_avg cs) ss ks ≤ 100) ∧
    (∀ s : ℚ, (85 ≤ s → ratingOf s = .very_good) ∧
      (70 ≤ s → s < 85 → ratingOf s = .good) ∧
      (50 ≤ s → s < 70 → ratingOf s = .needs_improvement) ∧
      (s < 50 → ratingOf s = .bad)) ∧
    examScore ⟨1/2, 3/10, 1/5⟩ (9/10) (4/5) 1 = 89 ∧
    ratingOf (examScore ⟨1/2, 3/10, 1/5⟩ (9/10) (4/5) 1) = .very_good := by
  have hscE : examScore ⟨1/2, 3/10, 1/5⟩ (9/10) (4/5) 1 = 89 := by
    norm_num [examScore, clamp01, min_def, max_def]
  have hca : 0 ≤ correctness_avg cs ∧ correctness_avg cs ≤ 1 := by
    rcases cs with _ | ⟨c0, cs'⟩
    · simp [correctness_avg]
    · have hlen : (0 : ℚ) < ((c0 :: cs').length : ℚ) := by
        have hl : 0 < (c0 :: cs').length := Nat.succ_pos cs'.length
        exact_mod_cast hl
      have hsum0 : 0 ≤ (c0 :: cs').sum :=
        List.sum_nonneg (fun x hx => (hcs x hx).1)
      have hsum1 : (c0 :: cs').sum ≤ ((c0 :: cs').length : ℚ) := by
        have := List.sum_le_card_nsmul (c0 :: cs') 1
          (fun x hx => (hcs x hx).2)
        simpa [nsmul_eq_mul] using this
      constructor
      · simp only [correctness_avg, List.isEmpty_cons, if_neg]
        positivity
      · simp only [correctness_avg, List.isEmpty_cons]
        rw [if_neg (by simp)]
        rw [div_le_one hlen]
        exact hsum1
  have hclamp : ∀ x : ℚ, 0 ≤ clamp01 x ∧ clamp01 x ≤ 1 := by
    intro x
    constructor
    · exact le_max_left 0 (min 1 x)
    · exact max_le zero_le_one (min_le_left 1 x)
  refine ⟨?_, ?_, hscE, ?_⟩
  · obtain ⟨hca0, hca1⟩ := hca
    obtain ⟨hss0, hss1⟩ := hclamp ss
    obtain ⟨hks0, hks1⟩ := hclamp ks
    have t1 : w.w_c * correctness_avg cs ≤ w.w_c :=
      mul_le_of_le_one_right hwc hca1
    have t2 : w.w_s * clamp01 ss ≤ w.w_s := mul_le_of_le_one_right hws hss1
    have t3 : w.w_k * clamp01 ks ≤ w.w_k := mul_le_of_le_one_right hwk hks1
    have n1 : 0 ≤ w.w_c * correctness_avg cs := mul_nonneg hwc hca0
    have n2 : 0 ≤ w.w_s * clamp01 ss := mul_nonneg hws hss0
    have n3 : 0 ≤ w.w_k * clamp01 ks := mul_nonneg hwk hks0
    constructor
    · simp only [examScore]
      linarith
    · simp only [examScore]
      linarith
  · intro s
    refine ⟨?_, ?_, ?_, ?_⟩ <;> intros <;> simp only [ratingOf] <;>
      split_ifs <;> first | rfl | linarith
  · rw [hscE]
    norm_num [ratingOf]

/-- Witness for C2 at Scenario E inputs: the amended theorem applied at
weights (1/2, 3/10, 1/5) and a single answer of correctness 9/10. -/
theorem scoring_engine_c2_witness :
    (0 ≤ examScore ⟨1/2, 3/10, 1/5⟩ (correctness_avg [9/10]) (4/5) 1 ∧
      examScore ⟨1/2, 3/10, 1/5⟩ (correctness_avg [9/10]) (4/5) 1 ≤ 100) ∧
    examScore ⟨1/2, 3/10, 1/5⟩ (9/10) (4/5) 1 = 89 ∧
    ratingOf (examScore ⟨1/2, 3/10, 1/5⟩ (9/10) (4/5) 1) = .very_good := by
  have h := scoring_engine_c2 ⟨1/2, 3/10, 1/5⟩ [9/10] (4/5) 1
    (by norm_num) (by norm_num) (by norm_num) (by norm_num)
    (by intro x hx; simp only [List.mem_singleton] at hx; subst hx; norm_num)
  exact ⟨h.1, h.2.2⟩

lemma filter_map_eq_of_agree {α : Type} (f : α → α) (p : α → Bool)
    (h1 : ∀ a, p (f a) = p a) (h2 : ∀ a, p a = true → f a = a) :
    ∀ l : List α, (l.map f).filter p = l.filter p := by
  intro l
  induction l with
  | nil => rfl
  | cons a l ih =>
    cases hpa : p a with
    | false => simp [List.filter_cons, h1 a, hpa, ih]
    | true => simp [List.filter_cons, h1 a, hpa, ih, h2 a hpa]

lemma filter_map_nil_of_false {α : Type} (f : α → α) (p : α → Bool)
    (h : ∀ a, p (f a) = false) : ∀ l : List α, (l.map f).filter p = [] := by
  intro l
  induction l with
  | nil => rfl
  | cons a l ih => simp [List.filter_cons, h a, ih]

lemma map_number_filter_map {f : AttemptRow → AttemptRow}
    (hf : ∀ a, (f a).student_id = a.student_id ∧
      (f a).config_id = a.config_id ∧
      (f a).attempt_number = a.attempt_number) (sid cid : Nat) :
    ∀ db : ExamDB,
      ((db.map f).filter
        (fun a => a.student_id == sid && a.config_id == cid)).map
          (fun a => a.attempt_number) =
      (db.filter (fun a => a.student_id == sid && a.config_id == cid)).map
        (fun a => a.attempt_number) := by
  intro db
  induction db with
  | nil => rfl
  | cons a db ih =>
    obtain ⟨h1, h2, h3⟩ := hf a
    cases hpa : (a.student_id == sid && a.config_id == cid) with
    | false => simp [List.filter_cons, h1, h2, hpa, ih]
    | true => simp [List.filter_cons, h1, h2, h3, hpa, ih]

lemma attemptsFor_finalize_numbers (db : ExamDB) (sid cid : Nat)
    (r : AttemptEndReason) (sid' cid' : Nat) :
    (attemptsFor (finalizeAttempt db sid cid r) sid' cid').map
      (fun a => a.attempt_number) =
    (attemptsFor db sid' cid').map (fun a => a.attempt_number) := by
  unfold attemptsFor finalizeAttempt
  exact map_number_filter_map (fun a => by split_ifs <;> simp) sid' cid' db

lemma openFor_finalize_self (db : ExamDB) (sid cid : Nat)
    (r : AttemptEndReason) :
    openFor (finalizeAttempt db sid cid r) sid cid = [] := by
  unfold openFor finalizeAttempt
  apply filter_map_nil_of_false
  intro a
  cases hc : (a.student_id == sid && a.config_id == cid &&
      a.finished.isNone) with
  | false => simp only [hc, Bool.false_eq_true, if_false]
  | true => simp [hc]

lemma openFor_finalize_ne (db : ExamDB) (sid cid : Nat)
    (r : AttemptEndReason) (sid' cid' : Nat)
    (hne : sid' ≠ sid ∨ cid' ≠ cid) :
    openFor (finalizeAttempt db sid cid r) sid' cid' =
      openFor db sid' cid' := by
  unfold openFor finalizeAttempt
  apply filter_map_eq_of_agree
  · intro a
    cases hc : (a.student_id == sid && a.config_id == cid &&
        a.finished.isNone) with
    | false => simp only [hc, Bool.false_eq_true, if_false]
    | true =>
      simp only [hc, if_true]
      simp only [Bool.and_eq_true, beq_iff_eq,
        Option.isNone_iff_eq_none] at hc
      obtain ⟨⟨hs, hcc⟩, hn⟩ := hc
      rcases hne with h' | h'
      · simp [hs, Ne.symm h']
      · simp [hcc, Ne.symm h']
  · intro a ha
    simp only [Bool.and_eq_true, beq_iff_eq,
      Option.isNone_iff_eq_none] at ha
    obtain ⟨⟨hs, hcc⟩, hn⟩ := ha
    rcases hne with h' | h'
    · rw [if_neg]
      simp [hs, h']
    · rw [if_neg]
      simp [hcc, h']

lemma filter_append_singleton {α : Type} (p : α → Bool) (l : List α)
    (x : α) :
    (l ++ [x]).filter p = l.filter p ++ if p x then [x] else [] := by
  rw [List.filter_append]
  congr 1
  cases hx : p x <;> simp [List.filter_cons, hx]

lemma startAttempt_ok_inv (db : ExamDB) (sid : Nat) (cfg : EngineConfig)
    (cid : Nat) (db' : ExamDB) (row : AttemptRow)
    (h : startAttempt db sid cfg cid = .ok (db', row)) :
    (attemptsFor db sid cid).length ≠ cfg.max_attempts ∧
    openFor db sid cid = [] ∧
    row = ⟨sid, cid, (attemptsFor db sid cid).length + 1, none⟩ ∧
    db' = db ++ [row] := by
  unfold startAttempt at h
  split_ifs at h with h1 h2
  injection h with hpr
  injection hpr with hdb2 hrow2
  refine ⟨h1, by simpa using h2, hrow2.symm, ?_⟩
  rw [← hdb2, hrow2]

lemma reachable_open_le_one (db : ExamDB) (h : DBReachable db) :
    ∀ sid cid, (openFor db sid cid).length ≤ 1 := by
  induction h with
  | init => intro sid cid; simp [openFor]
  | @step db0 db1 hr hs ih =>
    intro sid cid
    cases hs with
    | start_ok sid0 cfg0 cid0 db2 row hok =>
      obtain ⟨hne, hopen, hrow, hdb⟩ := startAttempt_ok_inv _ _ _ _ _ _ hok
      subst hdb
      subst hrow
      rw [openFor, filter_append_singleton]
      by_cases hpair : sid = sid0 ∧ cid = cid0
      · rw [if_pos (by simp [hpair.1, hpair.2])]
        have hob : openFor db0 sid cid = [] := by
          rw [hpair.1, hpair.2]; exact hopen
        rw [openFor] at hob
        rw [hob]
        simp
      · rw [if_neg ?hneg]
        case hneg =>
          intro hcontra
          simp only [Bool.and_eq_true, beq_iff_eq] at hcontra
          exact hpair ⟨hcontra.1.1.symm, hcontra.1.2.symm⟩
        simpa using ih sid cid
    | finalize sid0 cid0 r =>
      by_cases hpair : sid = sid0 ∧ cid = cid0
      · rw [hpair.1, hpair.2, openFor_finalize_self]
        simp
      · rw [openFor_finalize_ne db0 sid0 cid0 r sid cid (by tauto)]
        exact ih sid cid

lemma reachable_numbers (db : ExamDB) (h : DBReachable db) :
    ∀ sid cid, (attemptsFor db sid cid).map (fun a => a.attempt_number) =
      List.range' 1 (attemptsFor db sid cid).length := by
  induction h with
  | init => intro sid cid; rfl
  | @step db0 db1 hr hs ih =>
    intro sid cid
    cases hs with
    | start_ok sid0 cfg0 cid0 db2 row hok =>
      obtain ⟨hne, hopen, hrow, hdb⟩ := startAttempt_ok_inv _ _ _ _ _ _ hok
      subst hdb
      subst hrow
      rw [attemptsFor, filter_append_singleton]
      by_cases hpair : sid = sid0 ∧ cid = cid0
      · obtain ⟨hp1, hp2⟩ := hpair
        subst hp1
        subst hp2
        rw [if_pos (by simp)]
        have hAF := ih sid cid
        rw [attemptsFor] at hAF
        simp only [List.map_append, List.length_append, List.map_cons,
          List.map_nil, List.length_cons, List.length_nil]
        rw [hAF, attemptsFor, List.range'_concat]
        simp [Nat.add_comm]
      · rw [if_neg ?hneg3]
        case hneg3 =>
          intro hcontra
          simp only [Bool.and_eq_true, beq_iff_eq] at hcontra
          exact hpair ⟨hcontra.1.symm, hcontra.2.symm⟩
        simp only [List.append_nil]
        have := ih sid cid
        rw [attemptsFor] at this
        exact this
    | finalize sid0 cid0 r =>
      have hnum := attemptsFor_finalize_numbers db0 sid0 cid0 r sid cid
      have hlen : (attemptsFor (finalizeAttempt db0 sid0 cid0 r) sid
          cid).length = (attemptsFor db0 sid cid).length := by
        have := congrArg List.length hnum
        simpa using this
      rw [hnum, hlen]
      exact ih sid cid

/-- C3 counterexample: when an open attempt exists and the attempt count
has already reached max_attempts (here max_attempts = 1), start fails with
AttemptLimitExceeded, not AttemptAlreadyOpen, because the limit check comes
first. -/
theorem single_open_attempt_counterexample_c3 :
    openFor [⟨1, 1, 1, none⟩] 1 1 ≠ [] ∧
    startAttempt [⟨1, 1, 1, none⟩] 1 ⟨600, 1, 10, 3, 300⟩ 1 =
      .error .AttemptLimitExceeded ∧
    startAttempt [⟨1, 1, 1, none⟩] 1 ⟨600, 1, 10, 3, 300⟩ 1 ≠
      .error .AttemptAlreadyOpen := by
  refine ⟨by simp [openFor], rfl, ?_⟩
  intro hcontra
  rw [show startAttempt [⟨1, 1, 1, none⟩] 1 ⟨600, 1, 10, 3, 300⟩ 1 =
    .error .AttemptLimitExceeded from rfl] at hcontra
  exact absurd hcontra (by simp)

/-- C3 (amended): in every reachable attempt table at most one attempt per
(student, config) pair is open; whenever an open attempt exists, start
never creates a row — so two interleaved start calls can never both create
an open attempt, the check and the insert being one atomic step — and it
fails with AttemptAlreadyOpen except that AttemptLimitExceeded takes
precedence when the attempt limit is reached at the same moment. -/
theorem single_open_attempt_c3 :
    (∀ db, DBReachable db → ∀ sid cid, (openFor db sid cid).length ≤ 1) ∧
    (∀ db sid cfg cid, openFor db sid cid ≠ [] →
      ∀ db' row, startAttempt db sid cfg cid ≠ .ok (db', row)) ∧
    (∀ db sid cfg cid, openFor db sid cid ≠ [] →
      (attemptsFor db sid cid).length ≠ cfg.max_attempts →
      startAttempt db sid cfg cid = .error .AttemptAlreadyOpen) := by
  refine ⟨reachable_open_le_one, ?_, ?_⟩
  · intro db sid cfg cid hopen db' row hcontra
    obtain ⟨_, hnil, _, _⟩ := startAttempt_ok_inv _ _ _ _ _ _ hcontra
    exact hopen hnil
  · intro db sid cfg cid hopen hne
    unfold startAttempt
    rw [if_neg hne]
    have hemp : (openFor db sid cid).isEmpty = false := by
      cases hemp2 : (openFor db sid cid).isEmpty
      · rfl
      · exact absurd (by simpa using hemp2) hopen
    rw [if_pos hemp]

/-- Witness for C3: a table holding one open attempt is reachable by an
atomic start from the empty table, its open count is at most one, and a
second start for the same student and config fails with
AttemptAlreadyOpen. -/
theorem single_open_attempt_c3_witness :
    (openFor [⟨1, 1, 1, none⟩] 1 1).length ≤ 1 ∧
    startAttempt [⟨1, 1, 1, none⟩] 1 ⟨600, 2, 10, 3, 300⟩ 1 =
      .error .AttemptAlreadyOpen := by
  constructor
  · exact single_open_attempt_c3.1 [⟨1, 1, 1, none⟩]
      (DBReachable.step DBReachable.init
        (DBStep.start_ok [] 1 ⟨600, 2, 10, 3, 300⟩ 1 [⟨1, 1, 1, none⟩]
          ⟨1, 1, 1, none⟩ rfl)) 1 1
  · exact single_open_attempt_c3.2.2 [⟨1, 1, 1, none⟩] 1
      ⟨600, 2, 10, 3, 300⟩ 1 (by simp [openFor]) (by decide)

/-- C7: start fails with AttemptLimitExceeded exactly when the prior count
of attempts for the (student, config) pair equals max_attempts; a
successful start numbers the new attempt with the prior count plus one and
increments the count; in every reachable table the attempt numbers of a
(student, config) pair are strictly increasing in creation order; and with
max_attempts = 2 the second start succeeds with attempt_number 2 while a
third start fails. -/
theorem attempt_limit_c7 :
    (∀ db sid cfg cid,
      startAttempt db sid cfg cid = .error .AttemptLimitExceeded ↔
      (attemptsFor db sid cid).length = cfg.max_attempts) ∧
    (∀ db sid cfg cid db' row,
      startAttempt db sid cfg cid = .ok (db', row) →
      row.attempt_number = (attemptsFor db sid cid).length + 1 ∧
      (attemptsFor db' sid cid).length =
        (attemptsFor db sid cid).length + 1) ∧
    (∀ db, DBReachable db → ∀ sid cid,
      ((attemptsFor db sid cid).map (fun a => a.attempt_number)).Pairwise
        (· < ·)) ∧
    startAttempt [⟨1, 1, 1, some .completed⟩] 1 ⟨600, 2, 10, 3, 300⟩ 1 =
      .ok ([⟨1, 1, 1, some .completed⟩, ⟨1, 1, 2, none⟩],
        ⟨1, 1, 2, none⟩) ∧
    startAttempt [⟨1, 1, 1, some .completed⟩, ⟨1, 1, 2, some .student_end⟩]
      1 ⟨600, 2, 10, 3, 300⟩ 1 = .error .AttemptLimitExceeded := by
  refine ⟨?_, ?_, ?_, rfl, rfl⟩
  · intro db sid cfg cid
    unfold startAttempt
    split_ifs with h1 h2 <;> simp [h1]
  · intro db sid cfg cid db' row hok
    obtain ⟨hne, hopen, hrow, hdb⟩ := startAttempt_ok_inv _ _ _ _ _ _ hok
    subst hdb
    subst hrow
    refine ⟨rfl, ?_⟩
    rw [attemptsFor, filter_append_singleton, if_pos (by simp)]
    simp [attemptsFor]
  · intro db h sid cid
    rw [reachable_numbers db h sid cid]
    simpa using List.pairwise_lt_range' 1 ((attemptsFor db sid cid).length)

/-- Witness for C7: the successful-start conclusion at Scenario C inputs,
the strict ordering of attempt numbers at a concretely reachable table, and
the limit failure at a table already holding max_attempts attempts. -/
theorem attempt_limit_c7_witness :
    ((⟨1, 1, 2, none⟩ : AttemptRow).attempt_number =
      (attemptsFor [⟨1, 1, 1, some .completed⟩] 1 1).length + 1 ∧
    (attemptsFor [⟨1, 1, 1, some .completed⟩, ⟨1, 1, 2, none⟩] 1 1).length =
      (attemptsFor [⟨1, 1, 1, some .completed⟩] 1 1).length + 1) ∧
    ((attemptsFor [⟨1, 1, 1, none⟩] 1 1).map
      (fun a => a.attempt_number)).Pairwise (· < ·) ∧
    startAttempt [⟨1, 1, 1, some .completed⟩, ⟨1, 1, 2, some .student_end⟩]
      1 ⟨600, 2, 10, 3, 300⟩ 1 = .error .AttemptLimitExceeded := by
  refine ⟨?_, ?_, ?_⟩
  · exact attempt_limit_c7.2.1 [⟨1, 1, 1, some .completed⟩] 1
      ⟨600, 2, 10, 3, 300⟩ 1
      [⟨1, 1, 1, some .completed⟩, ⟨1, 1, 2, none⟩] ⟨1, 1, 2, none⟩ rfl
  · exact attempt_limit_c7.2.2.1 [⟨1, 1, 1, none⟩]
      (DBReachable.step DBReachable.init
        (DBStep.start_ok [] 1 ⟨600, 2, 10, 3, 300⟩ 1 [⟨1, 1, 1, none⟩]
          ⟨1, 1, 1, none⟩ rfl)) 1 1
  · exact (attempt_limit_c7.1
      [⟨1, 1, 1, some .completed⟩, ⟨1, 1, 2, some .student_end⟩] 1
      ⟨600, 2, 10, 3, 300⟩ 1).mpr (by decide)

lemma submit_answer_ok_inv (cfg : EngineConfig) (st : AttemptState)
    (qid e t : Nat) (g : Option GradeOutcome) (gen : Option Nat)
    (st' : AttemptState) (r : GradeOutcome)
    (h : submit_answer cfg st qid e t g gen = (st', .ok r)) :
    st.finished = none ∧
    st.answers.any (fun p => p.1 == qid) = false ∧
    g = some r ∧
    st'.answers = (qid, r) :: st.answers ∧
    st'.questions_answered = st.questions_answered + 1 := by
  unfold submit_answer at h
  by_cases h1 : st.finished.isSome
  · rw [if_pos h1] at h
    exact absurd h (by simp)
  · rw [if_neg h1] at h
    by_cases h2 : st.answers.any (fun p => p.1 == qid) = true
    · rw [if_pos h2] at h
      exact absurd h (by simp)
    · rw [if_neg h2] at h
      rcases g with _ | g0
      · exact absurd h (by simp)
      · simp only at h
        rcases hstop : stopReason cfg e
            (if g0.is_correct then 0 else st.consecutive_incorrect + 1) t
            (st.questions_answered + 1) with _ | r0
        · rw [hstop] at h
          rcases gen with _ | nq
          · exact absurd h (by simp)
          · simp only [Prod.mk.injEq, Except.ok.injEq] at h
            obtain ⟨hst, hg⟩ := h
            subst hg
            refine ⟨by simpa using h1, Bool.eq_false_iff.mpr h2, rfl,
              ?_, ?_⟩
            · rw [← hst]
            · rw [← hst]
        · rw [hstop] at h
          simp only [Prod.mk.injEq, Except.ok.injEq] at h
          obtain ⟨hst, hg⟩ := h
          subst hg
          refine ⟨by simpa using h1, Bool.eq_false_iff.mpr h2, rfl,
            ?_, ?_⟩
          · rw [← hst]
          · rw [← hst]

/-- C4 counterexample: a successful submit_answer that itself ends the
attempt (here via max_questions = 1) makes the retry with the same
question fail with AttemptNotOpen, not QuestionAlreadyAnswered, because
the open-attempt check runs first. -/
theorem answer_unique_counterexample_c4 :
    submit_answer ⟨600, 3, 1, 3, 300⟩ ⟨none, 0, 0, [], some 1⟩ 1 10 5
      (some ⟨1, true, ("ok")⟩) none =
      (⟨some .completed, 1, 0, [(1, ⟨1, true, ("ok")⟩)], none⟩,
        .ok ⟨1, true, ("ok")⟩) ∧
    (submit_answer ⟨600, 3, 1, 3, 300⟩
      ⟨some .completed, 1, 0, [(1, ⟨1, true, ("ok")⟩)], none⟩ 1 20 5
      (some ⟨1, true, ("ok")⟩) none).2 = .error .AttemptNotOpen ∧
    (.error .AttemptNotOpen : Except SubmitError GradeOutcome) ≠
      .error .QuestionAlreadyAnswered :=
  ⟨rfl, rfl, by simp⟩

/-- C4 (amended): after a successful submit_answer for a question, while
the attempt is still open any retry with the same question fails with
QuestionAlreadyAnswered and changes nothing; the success recorded the
question exactly once, incremented questions_answered by one, and keeps
the answer keys duplicate-free, so at most one Answer exists per
question. -/
theorem answer_unique_c4 (cfg : EngineConfig) (st st' : AttemptState)
    (qid e t : Nat) (g : Option GradeOutcome) (gen : Option Nat)
    (r : GradeOutcome)
    (hok : submit_answer cfg st qid e t g gen = (st', .ok r))
    (hopen : st'.finished = none) :
    (∀ e' t' g' gen', submit_answer cfg st' qid e' t' g' gen' =
      (st', .error .QuestionAlreadyAnswered)) ∧
    qid ∉ st.answers.map Prod.fst ∧
    st'.answers = (qid, r) :: st.answers ∧
    st'.questions_answered = st.questions_answered + 1 ∧
    ((st.answers.map Prod.fst).Nodup → (st'.answers.map Prod.fst).Nodup ∧
      (st'.answers.map Prod.fst).count qid = 1) := by
  obtain ⟨hfin, hany, hg, hans, hqa⟩ :=
    submit_answer_ok_inv cfg st qid e t g gen st' r hok
  have hnotmem : qid ∉ st.answers.map Prod.fst := by
    intro hmem
    obtain ⟨p, hp, hpq⟩ := List.mem_map.mp hmem
    have := List.any_eq_false.mp hany p hp
    simp [hpq] at this
  refine ⟨?_, hnotmem, hans, hqa, ?_⟩
  · intro e' t' g' gen'
    unfold submit_answer
    rw [if_neg (by simp [hopen])]
    rw [if_pos ?hpos]
    case hpos =>
      rw [hans]
      simp
  · intro hnd
    rw [hans]
    simp only [List.map_cons, List.nodup_cons]
    refine ⟨⟨hnotmem, hnd⟩, ?_⟩
    rw [List.count_cons_self, List.count_eq_zero.mpr hnotmem]

/-- Witness for C4 at a concrete open attempt: a successful first submit
followed by a retry that fails with QuestionAlreadyAnswered and leaves the
state unchanged. -/
theorem answer_unique_c4_witness :
    submit_answer ⟨600, 3, 10, 3, 300⟩
      ⟨none, 1, 0, [(1, ⟨1, true, ("ok")⟩)], some 2⟩ 1 20 5
      (some ⟨1, true, ("ok")⟩) (some 3) =
      (⟨none, 1, 0, [(1, ⟨1, true, ("ok")⟩)], some 2⟩,
        .error .QuestionAlreadyAnswered) :=
  (answer_unique_c4 ⟨600, 3, 10, 3, 300⟩ ⟨none, 0, 0, [], some 1⟩
    ⟨none, 1, 0, [(1, ⟨1, true, ("ok")⟩)], some 2⟩ 1 10 5
    (some ⟨1, true, ("ok")⟩) (some 2) ⟨1, true, ("ok")⟩ rfl rfl).1
    20 5 (some ⟨1, true, ("ok")⟩) (some 3)

/-- C8: a failed or timed-out external call surfaces a retryable failure
without mutating attempt state: every error outcome of submit_answer
leaves the state exactly as it was, a failed grading call yields
GradingFailed, and a failed generation call (after grading, when no stop
rule fired) yields GenerationFailed, in both cases with the state
unchanged so that the same submit_answer can be retried. -/
theorem retry_safe_failure_c8 (cfg : EngineConfig) (st : AttemptState)
    (qid e t : Nat) (g : Option GradeOutcome) (gen : Option Nat) :
    (∀ err, (submit_answer cfg st qid e t g gen).2 = .error err →
      (submit_answer cfg st qid e t g gen).1 = st) ∧
    (st.finished = none → (∀ p ∈ st.answers, p.1 ≠ qid) →
      submit_answer cfg st qid e t none gen = (st, .error .GradingFailed)) ∧
    (∀ g0, st.finished = none → (∀ p ∈ st.answers, p.1 ≠ qid) →
      stopReason cfg e (nextConsecutive st g0) t
        (st.questions_answered + 1) = none →
      submit_answer cfg st qid e t (some g0) none =
        (st, .error .GenerationFailed)) := by
  have hguard : ∀ (gg : Option GradeOutcome), st.finished = none →
      (∀ p ∈ st.answers, p.1 ≠ qid) →
      st.finished.isSome = false ∧
      st.answers.any (fun p => p.1 == qid) = false := by
    intro gg hfin hno
    refine ⟨by simp [hfin], ?_⟩
    rw [List.any_eq_false]
    intro p hp
    simpa using hno p hp
  refine ⟨?_, ?_, ?_⟩
  · intro err herr
    unfold submit_answer at herr ⊢
    by_cases h1 : st.finished.isSome
    · simp [h1]
    · by_cases h2 : st.answers.any (fun p => p.1 == qid) = true
      · simp [h1, h2]
      · rcases g with _ | g0
        · simp [h1, h2]
        · simp only [h1, h2, Bool.false_eq_true, if_false] at herr ⊢
          rcases hstop : stopReason cfg e
              (if g0.is_correct then 0 else st.consecutive_incorrect + 1)
              t (st.questions_answered + 1) with _ | r0
          · rw [hstop] at herr
            rcases gen with _ | nq
            · rfl
            · simp at herr
          · rw [hstop] at herr
            simp at herr
  · intro hfin hno
    obtain ⟨hg1, hg2⟩ := hguard none hfin hno
    unfold submit_answer
    rw [if_neg (by simp [hfin]), if_neg (by simp [hg2])]
  · intro g0 hfin hno hstop
    obtain ⟨hg1, hg2⟩ := hguard (some g0) hfin hno
    unfold submit_answer
    rw [if_neg (by simp [hfin]), if_neg (by simp [hg2])]
    simp only [nextConsecutive] at hstop
    simp only [hstop]

/-- Witness for C8 at a concrete open attempt: a grading failure and a
generation failure both return the retryable error with the state
unchanged. -/
theorem retry_safe_failure_c8_witness :
    submit_answer ⟨600, 3, 10, 3, 300⟩ ⟨none, 0, 0, [], some 1⟩ 1 10 5
      none (some 2) = (⟨none, 0, 0, [], some 1⟩, .error .GradingFailed) ∧
    submit_answer ⟨600, 3, 10, 3, 300⟩ ⟨none, 0, 0, [], some 1⟩ 1 10 5
      (some ⟨1, true, ("ok")⟩) none =
      (⟨none, 0, 0, [], some 1⟩, .error .GenerationFailed) :=
  ⟨(retry_safe_failure_c8 ⟨600, 3, 10, 3, 300⟩ ⟨none, 0, 0, [], some 1⟩
      1 10 5 none (some 2)).2.1 rfl (by simp),
    (retry_safe_failure_c8 ⟨600, 3, 10, 3, 300⟩ ⟨none, 0, 0, [], some 1⟩
      1 10 5 none none).2.2 ⟨1, true, ("ok")⟩ rfl (by simp) rfl⟩

/-- C5 counterexample: the public AttemptEndReason enum contains
no_questions and error, neither of which is among the five end reasons the
claim allows. -/
theorem end_reason_values_counterexample_c5 :
    AttemptEndReason.no_questions ∉ specEndReasons ∧
    AttemptEndReason.error ∉ specEndReasons := by
  decide

/-- C5 (amended): every end reason observable at the public interface is
one of the seven values of the AttemptEndReason enum declared in
frontend/lib/api-types.ts: completed, student_end, time_limit,
too_many_incorrect, too_slow, no_questions, error. -/
theorem end_reason_values_c5 (r : AttemptEndReason) :
    r ∈ publicEndReasons := by
  cases r <;> simp [publicEndReasons]

lemma rankLE_total (q : List ℚ) (a b : IndexEntry) :
    rankLE q a b = true ∨ rankLE q b a = true := by
  simp only [rankLE, decide_eq_true_eq]
  rcases lt_trichotomy (dot q a.vector) (dot q b.vector) with h | h | h
  · right
    left
    exact h
  · rcases Nat.le_total a.chunk.ordinal b.chunk.ordinal with h2 | h2
    · left
      right
      exact ⟨h, h2⟩
    · right
      right
      exact ⟨h.symm, h2⟩
  · left
    left
    exact h

lemma rankLE_trans (q : List ℚ) (a b c : IndexEntry)
    (hab : rankLE q a b = true) (hbc : rankLE q b c = true) :
    rankLE q a c = true := by
  simp only [rankLE, decide_eq_true_eq] at hab hbc ⊢
  rcases hab with h1 | ⟨h1, h1o⟩ <;> rcases hbc with h2 | ⟨h2, h2o⟩
  · left
    exact h2.trans h1
  · left
    rw [← h2]
    exact h1
  · left
    rw [h1]
    exact h2
  · right
    exact ⟨h1.trans h2, h1o.trans h2o⟩

lemma mergeSort_rank_pairwise (q : List ℚ) (l : List IndexEntry) :
    (l.mergeSort (rankLE q)).Pairwise
      (fun a b => rankLE q a b = true) :=
  List.sorted_mergeSort (fun a b c => rankLE_trans q a b c)
    (fun a b => by rcases rankLE_total q a b with h | h <;> simp [h]) l

/-- C6: query filters to exactly the candidates whose model identifier
equals the currently configured model and whose scope matches, returns at
most k of them (fewer when fewer exist, all of them in ranked order), an
empty scope yields the empty sequence rather than an error, the returned
sequence is ordered by descending dot product with the ordinal tie break,
and every returned entry ranks at least as high as every candidate left
out. -/
theorem vector_query_c6 (idx : List IndexEntry) (currentModel : String)
    (dept grade : Nat) (qvec : List ℚ) (k : Nat) (excl : List Nat) :
    (query_similar_chunks idx currentModel dept grade qvec k excl).length =
      min k (queryCandidates idx currentModel dept grade excl).length ∧
    (∀ en ∈ query_similar_chunks idx currentModel dept grade qvec k excl,
      en ∈ queryCandidates idx currentModel dept grade excl ∧
      en.model_identifier = currentModel ∧
      en.chunk.department_id = dept ∧ en.chunk.grade_level = grade ∧
      en.chunk.id ∉ excl) ∧
    (queryCandidates idx currentModel dept grade excl = [] →
      query_similar_chunks idx currentModel dept grade qvec k excl = []) ∧
    (query_similar_chunks idx currentModel dept grade qvec k excl).Pairwise
      (fun a b => rankLE qvec a b = true) ∧
    (∀ a ∈ query_similar_chunks idx currentModel dept grade qvec k excl,
      ∀ b ∈ queryCandidates idx currentModel dept grade excl,
      b ∉ query_similar_chunks idx currentModel dept grade qvec k excl →
      rankLE qvec a b = true) := by
  have hperm := List.mergeSort_perm
    (queryCandidates idx currentModel dept grade excl) (rankLE qvec)
  have hsorted := mergeSort_rank_pairwise qvec
    (queryCandidates idx currentModel dept grade excl)
  refine ⟨?_, ?_, ?_, ?_, ?_⟩
  · rw [query_similar_chunks, List.length_take, hperm.length_eq]
  · intro en hen
    have hmem : en ∈ queryCandidates idx currentModel dept grade excl :=
      hperm.mem_iff.mp (List.mem_of_mem_take hen)
    have hprops := List.mem_filter.mp hmem
    refine ⟨hmem, ?_⟩
    have := hprops.2
    simp only [Bool.and_eq_true, beq_iff_eq, decide_eq_true_eq] at this
    exact ⟨this.1.1.1, this.1.1.2, this.1.2, this.2⟩
  · intro hnil
    rw [query_similar_chunks, hnil, List.mergeSort_nil, List.take_nil]
  · exact hsorted.sublist (List.take_sublist k _)
  · intro a ha b hb hbnot
    have hbsorted : b ∈ (queryCandidates idx currentModel dept grade
        excl).mergeSort (rankLE qvec) := hperm.mem_iff.mpr hb
    have hsorted2 : (List.take k ((queryCandidates idx currentModel dept
        grade excl).mergeSort (rankLE qvec)) ++
        List.drop k ((queryCandidates idx currentModel dept grade
        excl).mergeSort (rankLE qvec))).Pairwise
          (fun a b => rankLE qvec a b = true) := by
      rw [List.take_append_drop]
      exact hsorted
    have hsplit := List.pairwise_append.mp hsorted2
    have hbdrop : b ∈ ((queryCandidates idx currentModel dept grade
        excl).mergeSort (rankLE qvec)).drop k := by
      rcases List.mem_append.mp
          ((List.take_append_drop k ((queryCandidates idx currentModel
            dept grade excl).mergeSort (rankLE qvec))).symm ▸ hbsorted)
          with hcase | hcase
      · exact absurd hcase hbnot
      · exact hcase
    exact hsplit.2.2 a ha b hbdrop

/-- Witness for C6: a scope with no candidates returns the empty sequence,
a matching entry is returned and satisfies the filter properties, and at
k = 1 of two candidates the returned entry ranks at least as high as the
omitted one. -/
theorem vector_query_c6_witness :
    query_similar_chunks [⟨⟨3, 2, 2, 0⟩, ("m0"), [1]⟩] ("m1") 1 1 [1] 5 [] = [] ∧
    ((⟨⟨1, 1, 1, 0⟩, ("m1"), [1]⟩ : IndexEntry) ∈
      queryCandidates [⟨⟨1, 1, 1, 0⟩, ("m1"), [1]⟩] ("m1") 1 1 [] ∧
      (⟨⟨1, 1, 1, 0⟩, ("m1"), [1]⟩ : IndexEntry).model_identifier = "m1" ∧
      (⟨⟨1, 1, 1, 0⟩, ("m1"), [1]⟩ : IndexEntry).chunk.department_id = 1 ∧
      (⟨⟨1, 1, 1, 0⟩, ("m1"), [1]⟩ : IndexEntry).chunk.grade_level = 1 ∧
      (⟨⟨1, 1, 1, 0⟩, ("m1"), [1]⟩ : IndexEntry).chunk.id ∉
        ([] : List Nat)) ∧
    rankLE [1] ⟨⟨1, 1, 1, 0⟩, ("m1"), [1]⟩ ⟨⟨2, 1, 1, 1⟩, ("m1"), [0]⟩ =
      true := by
  have hq1 : query_similar_chunks [⟨⟨1, 1, 1, 0⟩, ("m1"), [1]⟩] ("m1") 1 1 [1] 1 []
      = [⟨⟨1, 1, 1, 0⟩, ("m1"), [1]⟩] := by
    simp [query_similar_chunks, queryCandidates, List.mergeSort]
  have hq2 : query_similar_chunks
      [⟨⟨1, 1, 1, 0⟩, ("m1"), [1]⟩, ⟨⟨2, 1, 1, 1⟩, ("m1"), [0]⟩]
      ("m1") 1 1 [1] 1 [] = [⟨⟨1, 1, 1, 0⟩, ("m1"), [1]⟩] := by
    simp [query_similar_chunks, queryCandidates, List.mergeSort, rankLE, dot]
  refine ⟨?_, ?_, ?_⟩
  · exact (vector_query_c6 [⟨⟨3, 2, 2, 0⟩, ("m0"), [1]⟩] ("m1") 1 1 [1]
      5 []).2.2.1 rfl
  · exact (vector_query_c6 [⟨⟨1, 1, 1, 0⟩, ("m1"), [1]⟩] ("m1") 1 1 [1]
      1 []).2.1 ⟨⟨1, 1, 1, 0⟩, ("m1"), [1]⟩ (by rw [hq1]; simp)
  · exact (vector_query_c6
      [⟨⟨1, 1, 1, 0⟩, ("m1"), [1]⟩, ⟨⟨2, 1, 1, 1⟩, ("m1"), [0]⟩]
      ("m1") 1 1 [1] 1 []).2.2.2.2 ⟨⟨1, 1, 1, 0⟩, ("m1"), [1]⟩
      (by rw [hq2]; simp) ⟨⟨2, 1, 1, 1⟩, ("m1"), [0]⟩
      (by simp [queryCandidates]) (by rw [hq2]; simp)

/-- C9: at the public API the exam duration limit appears only as the
minutes field max_duration_minutes of ExamConfig — there is no field named
max_duration or max_duration_seconds — while the runtime timing fields
elapsed_seconds (on ExamAttempt and ActiveExamState),
time_remaining_seconds and stop_slow_seconds are all in seconds, so
comparing elapsed time against the configured limit requires the
minutes-to-seconds conversion. -/
theorem duration_units_c9 :
    ("max_duration_minutes") ∈ examConfigFields ∧
    ("max_duration") ∉ examConfigFields ∧
    ("max_duration_seconds") ∉ examConfigFields ∧
    ("elapsed_seconds") ∈ examAttemptFields ∧
    ("elapsed_seconds") ∈ activeExamStateFields ∧
    ("time_remaining_seconds") ∈ activeExamStateFields ∧
    ("stop_slow_seconds") ∈ examConfigFields ∧
    (∀ m : Nat, maxDurationSeconds m = 60 * m) := by
  refine ⟨by decide, by decide, by decide, by decide, by decide,
    by decide, by decide, fun m => rfl⟩

/-- C10: for every config field and input string, handleChange stores the
parsed integer when parseInt succeeds with a nonzero value and stores 0
otherwise (NaN from empty or non-numeric input, or a parsed zero), and
handleSave submits the form unchanged, so 0 can be submitted for any limit
field with no client-side lower bound. -/
theorem config_form_zero_c10 :
    (∀ f fld v, getField (handleChange f fld v) fld =
      jsOrZero (jsParseInt v)) ∧
    (∀ v n, jsParseInt v = some n → n ≠ 0 →
      jsOrZero (jsParseInt v) = n) ∧
    (∀ v, jsParseInt v = none → jsOrZero (jsParseInt v) = 0) ∧
    (∀ v, jsParseInt v = some 0 → jsOrZero (jsParseInt v) = 0) ∧
    jsParseInt ("") = none ∧
    jsParseInt ("abc") = none ∧
    jsParseInt ("0") = some 0 ∧
    (∀ fld, getField (handleSave (handleChange initialForm fld ("0")))
      fld = 0) := by
  refine ⟨?_, ?_, ?_, ?_, rfl, rfl, rfl, ?_⟩
  · intro f fld v
    cases fld <;> rfl
  · intro v n h hn
    rw [h]
    simp [jsOrZero, hn]
  · intro v h
    rw [h]
    rfl
  · intro v h
    rw [h]
    rfl
  · intro fld
    cases fld <;> rfl

/-- Witness for C10: parseInt results of a nonzero number, a non-numeric
string and an explicit zero, pushed through the logical-or default. -/
theorem config_form_zero_c10_witness :
    jsOrZero (jsParseInt ("7")) = 7 ∧
    jsOrZero (jsParseInt ("abc")) = 0 ∧
    jsOrZero (jsParseInt ("0")) = 0 :=
  ⟨config_form_zero_c10.2.1 ("7") 7 rfl (by decide),
    config_form_zero_c10.2.2.1 ("abc") rfl,
    config_form_zero_c10.2.2.2.1 ("0") rfl⟩

end AdaptiveExam
